import Mathlib

/-!
Verification of the TextRank preprocessing endpoint
(`kiwi-python-service/textrank_endpoint.py`).

The module receives a JSON payload `{ text, removeStopwords }`, validates it,
splits the text into sentences, runs a morphological analyzer per sentence
(keeping only the rank-0 parse candidate), optionally filters stopwords from
the three parallel sequences `tokens` / `normalized` / `posTags`, extracts a
key-term set by a part-of-speech heuristic, and aggregates statistics.
Per-sentence failures are caught at the single-sentence boundary and the
sentence is dropped from the output.

The embedding below follows the Python source line by line.  External
collaborators (the Kiwi segmenter and analyzer) are modelled as function
fields of a `Kiwi` structure; analyzer failure is an `Except` error. The
request correlation id (a wall-clock timestamp in the source) is a parameter.
Python string primitives `str.lower`, `str.strip`, `str.startswith` are
modelled over the character list of the string so that they compute in the
kernel.
-/

namespace TextRank

/-- Model of Python `str.lower()` (character-wise case folding). -/
def py_lower (s : String) : String := ⟨s.data.map Char.toLower⟩

/-- Model of Python `str.strip()`: remove whitespace from both ends. -/
def py_strip (s : String) : String :=
  ⟨((s.data.dropWhile Char.isWhitespace).reverse.dropWhile Char.isWhitespace).reverse⟩

/-- Model of Python `s.startswith(p)`. -/
def py_startswith (s p : String) : Bool := p.data.isPrefixOf s.data

/-- Untyped JSON-like request payloads, as delivered by `request.json`
(`null` models Python `None`). -/
inductive JsonValue where
  | null
  | bool (b : Bool)
  | num (n : Int)
  | str (s : String)
  | arr (elems : List JsonValue)
  | obj (fields : List (String × JsonValue))

/-- Python truthiness of a JSON value (`None`, `False`, `0`, `""`, `[]`, `{}`
are falsy, everything else truthy); this is what `if not data:` and
`if not text:` test in the source. -/
def JsonValue.truthy : JsonValue → Bool
  | .null => false
  | .bool b => b
  | .num n => n != 0
  | .str s => !s.isEmpty
  | .arr elems => !elems.isEmpty
  | .obj fields => !fields.isEmpty

/-- Errors that can escape `validate_input`: the module's own
`TextRankPreprocessingError` (carrying its message), or the `AttributeError`
raised by `data.get(...)` on a payload that is not a dict. -/
inductive PyError where
  | validation (msg : String)
  | attributeError
deriving DecidableEq

/-- Message of the "empty payload" validation error (source line 55). -/
def MSG_EMPTY_PAYLOAD : String := "요청 데이터가 비어있습니다"

/-- Message of the "missing text" validation error (source line 59). -/
def MSG_MISSING_TEXT : String := "텍스트가 제공되지 않았습니다"

/-- Message of the "text not a string" validation error (source line 62). -/
def MSG_NOT_A_STRING : String := "텍스트는 문자열이어야 합니다"

/-- Message of the "blank text" validation error (source line 65). -/
def MSG_BLANK_TEXT : String := "텍스트가 비어있습니다"

/-- The module-level Korean stopword set `KOREAN_STOPWORDS`, transcribed from
the source literal (a Python set; list membership models set membership). -/
def KOREAN_STOPWORDS : List String :=
  ["이", "그", "저", "것", "수", "등", "들", "및", "에", "에서", "의", "을", "를",
   "이다", "있다", "하다", "이런", "그런", "저런", "한", "이", "그", "저", "와", "과",
   "으로", "로", "에게", "뿐", "다", "도", "만", "까지", "에는", "랑", "이라", "며",
   "거나", "에도", "든지"]

/-- Embedding of `validate_input(data)`:
`if not data` raises "empty payload"; then `data.get('text')` (an
`AttributeError` if `data` is truthy but not a dict); `if not text` raises
"missing text"; `if not isinstance(text, str)` raises "text not a string";
`if len(text.strip()) == 0` raises "blank text"; otherwise the text is
returned. -/
def validate_input (data : JsonValue) : Except PyError String :=
  if !data.truthy then .error (.validation MSG_EMPTY_PAYLOAD) else
  match data with
  | .obj fields =>
    let text := (fields.lookup "text").getD .null
    if !text.truthy then .error (.validation MSG_MISSING_TEXT) else
    match text with
    | .str s =>
      if (py_strip s).length = 0 then .error (.validation MSG_BLANK_TEXT) else .ok s
    | _ => .error (.validation MSG_NOT_A_STRING)
  | _ => .error .attributeError

/-- One morpheme of a parse candidate, as indexed by the source:
`morpheme[0]` is the surface form, `morpheme[1]` the POS tag; start offset
and length are carried by the analyzer but unused by this endpoint. -/
structure Morpheme where
  form : String
  tag : String
  start : Nat
  len : Nat
deriving DecidableEq

/-- A sentence span returned by `split_into_sents`; the endpoint only reads
its `.text` field. -/
structure SentenceSpan where
  text : String
deriving DecidableEq

/-- Handle to the external kiwipiepy collaborator: `split_into_sents` yields
sentence spans in document order, and `analyze` yields the ranked list of
parse candidates, each paired with its score (rank 0 first), or raises. -/
structure Kiwi where
  split_into_sents : String → List SentenceSpan
  analyze : String → Except String (List (List Morpheme × ℚ))

/-- A per-sentence record of the response (`processedSentences` entries). -/
structure ProcessedSentence where
  index : Nat
  sentence : String
  tokens : List String
  normalized : List String
  posTags : List String
  tokenCount : Nat
deriving DecidableEq

/-- Embedding of the body of the per-sentence `try:` block (source lines
102-140): take the rank-0 candidate `analyze(sent_text)[0][0]` (failure of
the analyzer, or an empty candidate list, is the caught exception, giving
`none`), build the three parallel lists, filter them by stopword membership
of the normalized form when `remove_stopwords` is truthy (the source iterates
indices `i` of `normalized` and appends `tokens[i]`, `normalized[i]`,
`pos_tags[i]` when kept), and package the record. -/
def process_sentence (analyze : String → Except String (List (List Morpheme × ℚ)))
    (remove_stopwords : Bool) (idx : Nat) (sent_text : String) :
    Option ProcessedSentence :=
  match analyze sent_text with
  | .error _ => none
  | .ok candidates =>
    match candidates with
    | [] => none
    | (analysis, _score) :: _ =>
      let tokens := analysis.map (fun m => m.form)
      let normalized := analysis.map (fun m => py_lower m.form)
      let pos_tags := analysis.map (fun m => m.tag)
      if remove_stopwords then
        let keep := (List.range normalized.length).filter
          (fun i => !(KOREAN_STOPWORDS.contains (normalized.getD i "")))
        let filtered_tokens := keep.map (fun i => tokens.getD i "")
        let filtered_normalized := keep.map (fun i => normalized.getD i "")
        let filtered_pos_tags := keep.map (fun i => pos_tags.getD i "")
        some { index := idx, sentence := sent_text, tokens := filtered_tokens,
               normalized := filtered_normalized, posTags := filtered_pos_tags,
               tokenCount := filtered_tokens.length }
      else
        some { index := idx, sentence := sent_text, tokens := tokens,
               normalized := normalized, posTags := pos_tags,
               tokenCount := tokens.length }

/-- Embedding of the `for idx, sent_text in enumerate(sentence_texts):` loop
(source lines 101-144): a failed sentence is logged and skipped
(`continue`), a successful one appended, and the index keeps counting. -/
def process_sentences (analyze : String → Except String (List (List Morpheme × ℚ)))
    (remove_stopwords : Bool) : Nat → List String → List ProcessedSentence
  | _, [] => []
  | idx, sent :: rest =>
    match process_sentence analyze remove_stopwords idx sent with
    | some ps => ps :: process_sentences analyze remove_stopwords (idx + 1) rest
    | none => process_sentences analyze remove_stopwords (idx + 1) rest

/-- POS-tag heuristic of the key-term loop (source line 151):
`tag.startswith('N') or tag.startswith('V') or tag == 'VA'`. -/
def is_key_tag (tag : String) : Bool :=
  py_startswith tag "N" || py_startswith tag "V" || tag == "VA"

/-- Embedding of the key-term extraction (source lines 147-152): a set built
by adding `s['normalized'][i]` for every record `s` and every index `i` of
`s['posTags']` whose tag satisfies the heuristic. -/
def key_terms (processed_sentences : List ProcessedSentence) : Finset String :=
  (processed_sentences.flatMap (fun s =>
    (((List.range s.posTags.length).filter
        (fun i => is_key_tag (s.posTags.getD i ""))).map
      (fun i => s.normalized.getD i "")))).toFinset

/-- The `stats` object of the response. `avgTokensPerSentence` is a Python
float; its exact value `totalTokens / len(processedSentences)` is modelled
as a rational. -/
structure Stats where
  totalTokens : Nat
  avgTokensPerSentence : ℚ
  keyTermCount : Nat
deriving DecidableEq

/-- The success response body (source lines 155-166). `keyTerms` is
`list(key_terms)` in the source, a set rendered in arbitrary order; it is
modelled as the set itself. -/
structure PreprocessingResult where
  requestId : String
  sentences : List String
  processedSentences : List ProcessedSentence
  keyTerms : Finset String
  sentenceCount : Nat
  stats : Stats
deriving DecidableEq

/-- The three response shapes of the endpoint: HTTP 200 with the result
body, HTTP 400 for a caught `TextRankPreprocessingError`, HTTP 500 for any
other exception; both error bodies carry the request id. -/
inductive Response where
  | success (result : PreprocessingResult)
  | clientError (error : String) (requestId : String)
  | serverError (error : String) (requestId : String)
deriving DecidableEq

/-- Label prepended to the validation-error message (source line 172). -/
def VALIDATION_ERROR_LABEL : String := "TextRank 전처리 검증 오류: "

/-- Label of the generic internal-error message (source line 177); the
appended Python exception text is not modelled. -/
def SERVER_ERROR_LABEL : String := "TextRank 전처리 중 오류 발생"

/-- Embedding of `data.get('removeStopwords', True)` (source line 89); only
reached when validation succeeded, hence `data` is a dict there. -/
def get_remove_stopwords (data : JsonValue) : JsonValue :=
  match data with
  | .obj fields => (fields.lookup "removeStopwords").getD (.bool true)
  | _ => .bool true

/-- Embedding of the endpoint handler `preprocess_for_textrank` (source
lines 80-179): validate (a `TextRankPreprocessingError` is answered with
HTTP 400, any other escaped exception - e.g. the `AttributeError` of
`data.get` on a non-dict payload - with HTTP 500), read the
`removeStopwords` flag by truthiness, segment, process each sentence with
per-sentence fault isolation, extract key terms, aggregate stats, and
assemble the response. -/
def preprocess_for_textrank (kiwi : Kiwi) (request_id : String)
    (data : JsonValue) : Response :=
  match validate_input data with
  | .error (.validation msg) =>
    .clientError (VALIDATION_ERROR_LABEL ++ msg) request_id
  | .error .attributeError =>
    .serverError SERVER_ERROR_LABEL request_id
  | .ok text =>
    let remove_stopwords := (get_remove_stopwords data).truthy
    let sentence_texts := (kiwi.split_into_sents text).map (fun sent => sent.text)
    let processed_sentences :=
      process_sentences kiwi.analyze remove_stopwords 0 sentence_texts
    let kt := key_terms processed_sentences
    .success
      { requestId := request_id,
        sentences := sentence_texts,
        processedSentences := processed_sentences,
        keyTerms := kt,
        sentenceCount := sentence_texts.length,
        stats :=
          { totalTokens := (processed_sentences.map (fun s => s.tokenCount)).sum,
            avgTokensPerSentence :=
              if processed_sentences.isEmpty then 0
              else ((processed_sentences.map (fun s => s.tokenCount)).sum : ℚ) /
                (processed_sentences.length : ℚ),
            keyTermCount := kt.card } }

/-- Erase the request correlation id from a response, for comparing two runs
of the pipeline that differ only in their generated id. -/
def Response.eraseRequestId : Response → Response
  | .success result => .success { result with requestId := "" }
  | .clientError e _ => .clientError e ""
  | .serverError e _ => .serverError e ""

/-! ### Characterization of `process_sentence` -/

/-- The morphemes of the rank-0 candidate that survive the stopword pass:
all of them when the flag is off, otherwise those whose lowercased surface
form is not a stopword. -/
def kept_morphemes (remove_stopwords : Bool) (analysis : List Morpheme) :
    List Morpheme :=
  if remove_stopwords then
    analysis.filter (fun m => !(KOREAN_STOPWORDS.contains (py_lower m.form)))
  else analysis

/-- Collapsing the index-driven filtering loop of the source (iterate `i`
over `range (l.map G).length`, keep `i` when `p` holds of the `G`-list entry,
read the `F`-list entry back by index) into a direct filter of `l`. -/
lemma range_filter_map_getD {α : Type} (p : String → Bool) (G F : α → String)
    (l : List α) :
    (((List.range (l.map G).length).filter
        (fun i => p ((l.map G).getD i ""))).map
      (fun i => (l.map F).getD i ""))
      = (l.filter (fun m => p (G m))).map F := by
  induction l with
  | nil => simp
  | cons a l ih =>
    have hQ : (fun i => p ((G a :: l.map G).getD i "")) ∘ Nat.succ
        = (fun i => p ((l.map G).getD i "")) := by
      funext i
      simp
    have hR : (fun i => (F a :: l.map F).getD i "") ∘ Nat.succ
        = (fun i => (l.map F).getD i "") := by
      funext i
      simp
    simp only [List.map_cons, List.length_cons, List.range_succ_eq_map]
    by_cases hp : p (G a)
    · rw [List.filter_cons_of_pos (by simpa using hp),
          List.filter_cons_of_pos (by simpa using hp)]
      simp only [List.map_cons, List.getD_cons_zero]
      rw [List.filter_map, hQ, List.map_map, hR, ih]
    · rw [List.filter_cons_of_neg (by simpa using hp),
          List.filter_cons_of_neg (by simpa using hp)]
      rw [List.filter_map, hQ, List.map_map, hR, ih]

/-- Closed form of one iteration of the sentence loop: the record, when it
exists, is built from the `kept_morphemes` of the rank-0 parse candidate. -/
lemma process_sentence_eq (a : String → Except String (List (List Morpheme × ℚ)))
    (rs : Bool) (idx : Nat) (sent : String) :
    process_sentence a rs idx sent =
      match a sent with
      | .error _ => none
      | .ok [] => none
      | .ok ((analysis, _) :: _) =>
        some { index := idx, sentence := sent,
               tokens := (kept_morphemes rs analysis).map (fun m => m.form),
               normalized :=
                 (kept_morphemes rs analysis).map (fun m => py_lower m.form),
               posTags := (kept_morphemes rs analysis).map (fun m => m.tag),
               tokenCount := (kept_morphemes rs analysis).length } := by
  cases ha : a sent with
  | error e => simp [process_sentence, ha]
  | ok candidates =>
    cases candidates with
    | nil => simp [process_sentence, ha]
    | cons c rest =>
      obtain ⟨analysis, score⟩ := c
      by_cases hrs : rs
      · simp only [process_sentence, ha, hrs, if_true, kept_morphemes]
        rw [range_filter_map_getD (fun t => !(KOREAN_STOPWORDS.contains t))
              (fun m => py_lower m.form) (fun m => m.form) analysis,
            range_filter_map_getD (fun t => !(KOREAN_STOPWORDS.contains t))
              (fun m => py_lower m.form) (fun m => py_lower m.form) analysis,
            range_filter_map_getD (fun t => !(KOREAN_STOPWORDS.contains t))
              (fun m => py_lower m.form) (fun m => m.tag) analysis]
        simp [List.length_map]
      · simp [process_sentence, ha, hrs, kept_morphemes]

/-- Destructor form of `process_sentence_eq` for a successful sentence. -/
lemma process_sentence_some_elim
    {a : String → Except String (List (List Morpheme × ℚ))} {rs : Bool}
    {idx : Nat} {sent : String} {ps : ProcessedSentence}
    (h : process_sentence a rs idx sent = some ps) :
    ∃ analysis score rest, a sent = .ok ((analysis, score) :: rest) ∧
      ps = { index := idx, sentence := sent,
             tokens := (kept_morphemes rs analysis).map (fun m => m.form),
             normalized :=
               (kept_morphemes rs analysis).map (fun m => py_lower m.form),
             posTags := (kept_morphemes rs analysis).map (fun m => m.tag),
             tokenCount := (kept_morphemes rs analysis).length } := by
  rw [process_sentence_eq] at h
  cases ha : a sent with
  | error e => rw [ha] at h; exact absurd h (by simp)
  | ok candidates =>
    cases candidates with
    | nil => rw [ha] at h; exact absurd h (by simp)
    | cons c rest =>
      obtain ⟨analysis, score⟩ := c
      rw [ha] at h
      simp only [Option.some.injEq] at h
      exact ⟨analysis, score, rest, rfl, h.symm⟩

/-! ### The sentence loop -/

/-- A record is collected by the loop exactly when the corresponding slot of
the sentence list processed successfully. -/
lemma mem_process_sentences
    {a : String → Except String (List (List Morpheme × ℚ))} {rs : Bool}
    {ps : ProcessedSentence} (texts : List String) (k : Nat) :
    ps ∈ process_sentences a rs k texts ↔
      ∃ i, i < texts.length ∧
        process_sentence a rs (k + i) (texts.getD i "") = some ps := by
  induction texts generalizing k with
  | nil => simp [process_sentences]
  | cons sent rest ih =>
    cases h : process_sentence a rs k sent with
    | none =>
      simp only [process_sentences, h]
      rw [ih (k + 1)]
      constructor
      · rintro ⟨i, hi, hp⟩
        refine ⟨i + 1, by simpa using hi, ?_⟩
        rw [show k + (i + 1) = k + 1 + i from by omega]
        simpa using hp
      · rintro ⟨i, hi, hp⟩
        cases i with
        | zero =>
          rw [Nat.add_zero, List.getD_cons_zero, h] at hp
          exact absurd hp (by simp)
        | succ j =>
          refine ⟨j, by simpa using hi, ?_⟩
          rw [show k + 1 + j = k + (j + 1) from by omega]
          simpa using hp
    | some q =>
      simp only [process_sentences, h, List.mem_cons]
      rw [ih (k + 1)]
      constructor
      · rintro (rfl | ⟨i, hi, hp⟩)
        · exact ⟨0, by simp, by simpa using h⟩
        · refine ⟨i + 1, by simpa using hi, ?_⟩
          rw [show k + (i + 1) = k + 1 + i from by omega]
          simpa using hp
      · rintro ⟨i, hi, hp⟩
        cases i with
        | zero =>
          rw [Nat.add_zero, List.getD_cons_zero, h] at hp
          exact Or.inl (Option.some.inj hp).symm
        | succ j =>
          refine Or.inr ⟨j, by simpa using hi, ?_⟩
          rw [show k + 1 + j = k + (j + 1) from by omega]
          simpa using hp


/-- The index fields of the collected records are, in order, exactly the
positions of the sentence list whose processing succeeded. -/
lemma map_index_process_sentences
    {a : String → Except String (List (List Morpheme × ℚ))} {rs : Bool}
    (texts : List String) (k : Nat) :
    (process_sentences a rs k texts).map (fun ps => ps.index)
      = ((List.range texts.length).filter
          (fun i => (process_sentence a rs (k + i) (texts.getD i "")).isSome)).map
        (fun i => k + i) := by
  induction texts generalizing k with
  | nil => simp [process_sentences]
  | cons sent rest ih =>
    have harg : ((fun i => (process_sentence a rs (k + i)
          ((sent :: rest).getD i "")).isSome) ∘ Nat.succ)
        = (fun i => (process_sentence a rs (k + 1 + i)
          (rest.getD i "")).isSome) := by
      funext i
      simp only [Function.comp, Nat.succ_eq_add_one, List.getD_cons_succ]
      rw [show k + (i + 1) = k + 1 + i from by omega]
    have hout : ((fun i => k + i) ∘ Nat.succ)
        = (fun i => k + 1 + i) := by
      funext i
      simp only [Function.comp, Nat.succ_eq_add_one]
      omega
    rw [List.length_cons, List.range_succ_eq_map]
    cases h : process_sentence a rs k sent with
    | some q =>
      obtain ⟨analysis, score, restc, ha, hq⟩ := process_sentence_some_elim h
      rw [List.filter_cons_of_pos (by simp [h])]
      simp only [process_sentences, h, List.map_cons]
      rw [List.filter_map, harg, List.map_map, hout, ih (k + 1), hq]
      simp
    | none =>
      rw [List.filter_cons_of_neg (by simp [h])]
      simp only [process_sentences, h]
      rw [List.filter_map, harg, List.map_map, hout, ih (k + 1)]

/-- At most one record per sentence: the loop never grows the list beyond
the number of sentences. -/
lemma length_process_sentences_le
    {a : String → Except String (List (List Morpheme × ℚ))} {rs : Bool}
    (texts : List String) (k : Nat) :
    (process_sentences a rs k texts).length ≤ texts.length := by
  induction texts generalizing k with
  | nil => simp [process_sentences]
  | cons sent rest ih =>
    cases h : process_sentence a rs k sent with
    | some q =>
      simpa [process_sentences, h] using Nat.succ_le_succ (ih (k + 1))
    | none =>
      simp only [process_sentences, h, List.length_cons]
      exact le_trans (ih (k + 1)) (Nat.le_succ _)

/-- The collected list is strictly shorter than the sentence list exactly
when some sentence slot failed to process. -/
lemma length_process_sentences_lt_iff
    {a : String → Except String (List (List Morpheme × ℚ))} {rs : Bool}
    (texts : List String) (k : Nat) :
    (process_sentences a rs k texts).length < texts.length ↔
      ∃ i, i < texts.length ∧
        process_sentence a rs (k + i) (texts.getD i "") = none := by
  induction texts generalizing k with
  | nil => simp [process_sentences]
  | cons sent rest ih =>
    cases h : process_sentence a rs k sent with
    | some q =>
      simp only [process_sentences, h, List.length_cons]
      rw [Nat.succ_lt_succ_iff, ih (k + 1)]
      constructor
      · rintro ⟨i, hi, hp⟩
        refine ⟨i + 1, by simpa using hi, ?_⟩
        rw [show k + (i + 1) = k + 1 + i from by omega]
        simpa using hp
      · rintro ⟨i, hi, hp⟩
        cases i with
        | zero =>
          rw [Nat.add_zero, List.getD_cons_zero, h] at hp
          exact absurd hp (by simp)
        | succ j =>
          refine ⟨j, by simpa using hi, ?_⟩
          rw [show k + 1 + j = k + (j + 1) from by omega]
          simpa using hp
    | none =>
      simp only [process_sentences, h, List.length_cons]
      constructor
      · intro _
        exact ⟨0, by simp, by simpa using h⟩
      · intro _
        exact Nat.lt_succ_of_le (length_process_sentences_le rest (k + 1))

/-! ### Inversion of the pipeline -/

/-- A payload that validates always yields a success response. -/
lemma preprocess_valid_success {data : JsonValue} {text : String}
    (kiwi : Kiwi) (request_id : String)
    (hv : validate_input data = .ok text) :
    ∃ r, preprocess_for_textrank kiwi request_id data = .success r := by
  cases hr : preprocess_for_textrank kiwi request_id data with
  | success r => exact ⟨r, rfl⟩
  | clientError e rid => simp [preprocess_for_textrank, hv] at hr
  | serverError e rid => simp [preprocess_for_textrank, hv] at hr

/-- Shape of every success response: each field is what the orchestration
computes from the validated text. -/
lemma preprocess_success_elim {kiwi : Kiwi} {request_id : String}
    {data : JsonValue} {r : PreprocessingResult}
    (h : preprocess_for_textrank kiwi request_id data = .success r) :
    ∃ text, validate_input data = .ok text ∧
      r.requestId = request_id ∧
      r.sentences = (kiwi.split_into_sents text).map (fun sent => sent.text) ∧
      r.processedSentences = process_sentences kiwi.analyze
        (get_remove_stopwords data).truthy 0 r.sentences ∧
      r.keyTerms = key_terms r.processedSentences ∧
      r.sentenceCount = r.sentences.length ∧
      r.stats.totalTokens
        = (r.processedSentences.map (fun s => s.tokenCount)).sum ∧
      r.stats.avgTokensPerSentence
        = (if r.processedSentences.isEmpty then 0
           else ((r.processedSentences.map (fun s => s.tokenCount)).sum : ℚ) /
             (r.processedSentences.length : ℚ)) ∧
      r.stats.keyTermCount = r.keyTerms.card := by
  cases hv : validate_input data with
  | error e =>
    cases e with
    | validation msg => simp [preprocess_for_textrank, hv] at h
    | attributeError => simp [preprocess_for_textrank, hv] at h
  | ok text =>
    refine ⟨text, rfl, ?_⟩
    simp only [preprocess_for_textrank, hv] at h
    obtain rfl := (Response.success.inj h).symm
    refine ⟨rfl, rfl, rfl, rfl, rfl, rfl, rfl, rfl⟩

/-! ### Concrete fixtures used to instantiate theorems with hypotheses -/

/-- Extract the result of a success response (dummy record otherwise). -/
def response_result (resp : Response) : PreprocessingResult :=
  match resp with
  | .success r => r
  | .clientError _ _ => ⟨"", [], [], ∅, 0, ⟨0, 0, 0⟩⟩
  | .serverError _ _ => ⟨"", [], [], ∅, 0, ⟨0, 0, 0⟩⟩

/-- A one-morpheme parse candidate used by the demo analyzer. -/
def demo_parse (s : String) (tag : String) : List (List Morpheme × ℚ) :=
  [([{ form := s, tag := tag, start := 0, len := 1 }], 1)]

/-- A demo collaborator: five sentences, where the sentence "s2" makes the
analyzer raise, "s0" parses to a noun, "s1" to a verb, the rest to suffixes. -/
def demo_kiwi : Kiwi :=
  { split_into_sents := fun _ => [⟨"s0"⟩, ⟨"s1"⟩, ⟨"s2"⟩, ⟨"s3"⟩, ⟨"s4"⟩],
    analyze := fun sent =>
      if sent = "s2" then .error "analyzer failure"
      else if sent = "s0" then .ok (demo_parse sent "NNG")
      else if sent = "s1" then .ok (demo_parse sent "VV")
      else .ok (demo_parse sent "EC") }

/-- A demo collaborator whose single sentence parses to a mix of content
morphemes and stopwords, to exercise the stopword filter. -/
def demo_kiwi_stop : Kiwi :=
  { split_into_sents := fun _ => [⟨"고양이 이 Cat"⟩],
    analyze := fun _ =>
      .ok [([{ form := "고양이", tag := "NNG", start := 0, len := 3 },
             { form := "이", tag := "JKS", start := 3, len := 1 },
             { form := "Cat", tag := "NNG", start := 5, len := 3 }], 1)] }

/-- The demo payload `{"text": "doc"}`. -/
def demo_data : JsonValue := .obj [("text", .str "doc")]

/-- The demo payload `{"text": "doc", "removeStopwords": false}`. -/
def demo_data_keep : JsonValue :=
  .obj [("text", .str "doc"), ("removeStopwords", .bool false)]

/-- The demo response for `demo_kiwi` and `demo_data`. -/
def demo_resp : Response := preprocess_for_textrank demo_kiwi "req" demo_data

/-- The result record of the demo response. -/
def demo_r : PreprocessingResult := response_result demo_resp

/-! ### The claims -/

/-- C6: in every success response, `stats.totalTokens` is the sum of
`tokenCount` over `processedSentences`, `stats.avgTokensPerSentence` is `0`
when `processedSentences` is empty and `totalTokens / len(processedSentences)`
otherwise (the division is guarded, never an error), and `stats.keyTermCount`
is the size of the key-term set. -/
theorem C6_stats_correct (kiwi : Kiwi) (request_id : String) (data : JsonValue)
    (r : PreprocessingResult)
    (h : preprocess_for_textrank kiwi request_id data = .success r) :
    r.stats.totalTokens
      = (r.processedSentences.map (fun s => s.tokenCount)).sum ∧
    r.stats.avgTokensPerSentence
      = (if r.processedSentences.isEmpty then 0
         else (r.stats.totalTokens : ℚ) / (r.processedSentences.length : ℚ)) ∧
    r.stats.keyTermCount = r.keyTerms.card := by
  obtain ⟨text, hv, hrid, hsent, hps, hkt, hcount, htot, havg, hterm⟩ :=
    preprocess_success_elim h
  refine ⟨htot, ?_, hterm⟩
  rw [havg, htot]
  by_cases hE : r.processedSentences.isEmpty <;>
    simp [hE, Nat.cast_list_sum, List.map_map, Function.comp_def]

/-- C6 witness: the theorem instantiated at the demo request. -/
theorem C6_stats_correct_witness :
    preprocess_for_textrank demo_kiwi "req" demo_data = .success demo_r ∧
      (demo_r.stats.totalTokens
        = (demo_r.processedSentences.map (fun s => s.tokenCount)).sum ∧
      demo_r.stats.avgTokensPerSentence
        = (if demo_r.processedSentences.isEmpty then 0
           else (demo_r.stats.totalTokens : ℚ) /
             (demo_r.processedSentences.length : ℚ)) ∧
      demo_r.stats.keyTermCount = demo_r.keyTerms.card) :=
  ⟨rfl, C6_stats_correct demo_kiwi "req" demo_data demo_r rfl⟩

/-- C9: the pipeline is deterministic up to the correlation id: two
invocations with identical payloads (and the same deterministic segmenter
and analyzer) agree on everything - status, sentences, processed records,
key-term set and stats - except possibly the `requestId`. -/
theorem C9_deterministic (kiwi : Kiwi) (rid₁ rid₂ : String) (data : JsonValue) :
    (preprocess_for_textrank kiwi rid₁ data).eraseRequestId
      = (preprocess_for_textrank kiwi rid₂ data).eraseRequestId := by
  cases hv : validate_input data with
  | error e =>
    cases e with
    | validation msg =>
      simp [preprocess_for_textrank, hv, Response.eraseRequestId]
    | attributeError =>
      simp [preprocess_for_textrank, hv, Response.eraseRequestId]
  | ok text =>
    simp [preprocess_for_textrank, hv, Response.eraseRequestId]

/-- C10: a truthy payload that is not a key-value mapping is not rejected by
validation with a `ValidationError`; the attribute lookup on it fails after
the emptiness check, escapes the validator, and the endpoint answers with
the internal server-error response carrying the request id. -/
theorem C10_nonmapping_payload (kiwi : Kiwi) (request_id : String)
    (data : JsonValue) (htruthy : data.truthy = true)
    (hnotobj : ∀ fields, data ≠ .obj fields) :
    validate_input data = .error .attributeError ∧
    preprocess_for_textrank kiwi request_id data
      = .serverError SERVER_ERROR_LABEL request_id := by
  have hval : validate_input data = .error .attributeError := by
    cases data with
    | obj fields => exact absurd rfl (hnotobj fields)
    | null => simp [JsonValue.truthy] at htruthy
    | bool b => simp [validate_input, htruthy]
    | num n => simp [validate_input, htruthy]
    | str s => simp [validate_input, htruthy]
    | arr elems => simp [validate_input, htruthy]
  exact ⟨hval, by simp [preprocess_for_textrank, hval]⟩

/-- C10 witness: the theorem instantiated at the non-empty-array payload. -/
theorem C10_nonmapping_payload_witness :
    (JsonValue.arr [.str "x"]).truthy = true ∧
    (∀ fields, JsonValue.arr [.str "x"] ≠ .obj fields) ∧
    (validate_input (JsonValue.arr [.str "x"]) = .error .attributeError ∧
      preprocess_for_textrank demo_kiwi "req" (JsonValue.arr [.str "x"])
        = .serverError SERVER_ERROR_LABEL "req") :=
  ⟨by decide, fun fields h => JsonValue.noConfusion h,
   C10_nonmapping_payload demo_kiwi "req" (JsonValue.arr [.str "x"])
     (by decide) (fun fields h => JsonValue.noConfusion h)⟩

/-- C8: in every success response, `sentenceCount` equals the length of the
`sentences` array, and `processedSentences` is at most that long - strictly
shorter exactly when some sentence slot failed to process. -/
theorem C8_count_invariants (kiwi : Kiwi) (request_id : String)
    (data : JsonValue) (r : PreprocessingResult)
    (h : preprocess_for_textrank kiwi request_id data = .success r) :
    r.sentenceCount = r.sentences.length ∧
    r.processedSentences.length ≤ r.sentenceCount ∧
    (r.processedSentences.length < r.sentenceCount ↔
      ∃ i, i < r.sentences.length ∧
        process_sentence kiwi.analyze (get_remove_stopwords data).truthy i
          (r.sentences.getD i "") = none) := by
  obtain ⟨text, hv, hrid, hsent, hps, hkt, hcount, _, _, _⟩ :=
    preprocess_success_elim h
  refine ⟨hcount, ?_, ?_⟩
  · rw [hcount, hps]
    exact length_process_sentences_le _ 0
  · rw [hcount, hps, length_process_sentences_lt_iff _ 0]
    constructor
    · rintro ⟨i, hi, hp⟩
      exact ⟨i, hi, by simpa using hp⟩
    · rintro ⟨i, hi, hp⟩
      exact ⟨i, hi, by simpa using hp⟩

/-- C8 witness: the theorem instantiated at the demo request (where sentence
"s2" fails, so the strict inequality side is inhabited). -/
theorem C8_count_invariants_witness :
    preprocess_for_textrank demo_kiwi "req" demo_data = .success demo_r ∧
    (demo_r.sentenceCount = demo_r.sentences.length ∧
     demo_r.processedSentences.length ≤ demo_r.sentenceCount ∧
     (demo_r.processedSentences.length < demo_r.sentenceCount ↔
       ∃ i, i < demo_r.sentences.length ∧
         process_sentence demo_kiwi.analyze
           (get_remove_stopwords demo_data).truthy i
           (demo_r.sentences.getD i "") = none)) :=
  ⟨rfl, C8_count_invariants demo_kiwi "req" demo_data demo_r rfl⟩

/-- C1: per-sentence fault isolation: whenever validation passes, the
response is a success; every surviving record is exactly the successful
processing of the sentence at its own `index`; and the `index` fields are,
in order, exactly the positions whose processing succeeded (so a failure at
index 2 of 5 leaves records indexed 0, 1, 3, 4). -/
theorem C1_fault_isolation (kiwi : Kiwi) (request_id : String)
    (data : JsonValue) (text : String)
    (hv : validate_input data = .ok text) :
    ∃ r, preprocess_for_textrank kiwi request_id data = .success r ∧
      (∀ ps ∈ r.processedSentences,
        process_sentence kiwi.analyze (get_remove_stopwords data).truthy
          ps.index (r.sentences.getD ps.index "") = some ps) ∧
      r.processedSentences.map (fun ps => ps.index)
        = (List.range r.sentences.length).filter
            (fun i => (process_sentence kiwi.analyze
              (get_remove_stopwords data).truthy i
              (r.sentences.getD i "")).isSome) := by
  obtain ⟨r, hr⟩ := preprocess_valid_success kiwi request_id hv
  obtain ⟨text', hv', hrid, hsent, hps, _, _, _, _, _⟩ :=
    preprocess_success_elim hr
  refine ⟨r, hr, ?_, ?_⟩
  · intro ps hmem
    rw [hps] at hmem
    obtain ⟨i, hi, hp⟩ := (mem_process_sentences _ 0).mp hmem
    have hidx : ps.index = i := by
      obtain ⟨analysis, score, restc, ha, hq⟩ := process_sentence_some_elim hp
      rw [hq]
      simp
    rw [hidx]
    simpa using hp
  · rw [hps, map_index_process_sentences r.sentences 0]
    simp only [Nat.zero_add]
    exact List.map_id _

/-- C1 witness: at the demo request, sentence "s2" (index 2 of 5) fails and
exactly the records indexed 0, 1, 3, 4 survive. -/
theorem C1_fault_isolation_witness :
    validate_input demo_data = .ok "doc" ∧
    demo_r.processedSentences.map (fun ps => ps.index) = [0, 1, 3, 4] ∧
    (∃ r, preprocess_for_textrank demo_kiwi "req" demo_data = .success r ∧
      (∀ ps ∈ r.processedSentences,
        process_sentence demo_kiwi.analyze
          (get_remove_stopwords demo_data).truthy
          ps.index (r.sentences.getD ps.index "") = some ps) ∧
      r.processedSentences.map (fun ps => ps.index)
        = (List.range r.sentences.length).filter
            (fun i => (process_sentence demo_kiwi.analyze
              (get_remove_stopwords demo_data).truthy i
              (r.sentences.getD i "")).isSome)) :=
  ⟨rfl, rfl, C1_fault_isolation demo_kiwi "req" demo_data "doc" rfl⟩

/-- C2: in every success response, whatever the `removeStopwords` value, the
three sequences of each record are parallel: their lengths all equal
`tokenCount`. -/
theorem C2_parallel_lengths (kiwi : Kiwi) (request_id : String)
    (data : JsonValue) (r : PreprocessingResult)
    (h : preprocess_for_textrank kiwi request_id data = .success r) :
    ∀ ps ∈ r.processedSentences,
      ps.tokens.length = ps.tokenCount ∧
      ps.normalized.length = ps.tokenCount ∧
      ps.posTags.length = ps.tokenCount := by
  obtain ⟨text, hv, _, _, hps, _, _, _, _, _⟩ := preprocess_success_elim h
  intro ps hmem
  rw [hps] at hmem
  obtain ⟨i, hi, hp⟩ := (mem_process_sentences _ 0).mp hmem
  obtain ⟨analysis, score, restc, ha, hq⟩ := process_sentence_some_elim hp
  rw [hq]
  simp

/-- A default record used to read entries out of demo responses. -/
def null_ps : ProcessedSentence := ⟨0, "", [], [], [], 0⟩

/-- The first surviving record of the demo response. -/
def demo_ps0 : ProcessedSentence := demo_r.processedSentences.getD 0 null_ps

/-- C2 witness: the theorem instantiated at the demo request and its first
surviving record. -/
theorem C2_parallel_lengths_witness :
    preprocess_for_textrank demo_kiwi "req" demo_data = .success demo_r ∧
    demo_ps0 ∈ demo_r.processedSentences ∧
    (demo_ps0.tokens.length = demo_ps0.tokenCount ∧
     demo_ps0.normalized.length = demo_ps0.tokenCount ∧
     demo_ps0.posTags.length = demo_ps0.tokenCount) :=
  ⟨rfl, by decide,
   C2_parallel_lengths demo_kiwi "req" demo_data demo_r rfl demo_ps0 (by decide)⟩

/-- C4: when `removeStopwords` is falsy, every record carries the analyzer's
rank-0 candidate unfiltered: `tokens` is the sequence of surface forms,
`normalized` their case-folded copies, `posTags` their tags, nothing
dropped. -/
theorem C4_unfiltered_rank0 (kiwi : Kiwi) (request_id : String)
    (data : JsonValue) (r : PreprocessingResult)
    (h : preprocess_for_textrank kiwi request_id data = .success r)
    (hrs : (get_remove_stopwords data).truthy = false) :
    ∀ ps ∈ r.processedSentences,
      ∃ analysis score rest,
        kiwi.analyze ps.sentence = .ok ((analysis, score) :: rest) ∧
        ps.tokens = analysis.map (fun m => m.form) ∧
        ps.normalized = analysis.map (fun m => py_lower m.form) ∧
        ps.posTags = analysis.map (fun m => m.tag) := by
  obtain ⟨text, hv, _, _, hps, _, _, _, _, _⟩ := preprocess_success_elim h
  intro ps hmem
  rw [hps, hrs] at hmem
  obtain ⟨i, hi, hp⟩ := (mem_process_sentences _ 0).mp hmem
  obtain ⟨analysis, score, restc, ha, hq⟩ := process_sentence_some_elim hp
  subst hq
  refine ⟨analysis, score, restc, by simpa using ha, ?_, ?_, ?_⟩ <;>
    simp [kept_morphemes]

/-- The demo response when stopword removal is turned off. -/
def demo_keep_r : PreprocessingResult :=
  response_result (preprocess_for_textrank demo_kiwi_stop "req" demo_data_keep)

/-- The first record of the stopword-keeping demo response. -/
def demo_keep_ps0 : ProcessedSentence := demo_keep_r.processedSentences.getD 0 null_ps

/-- C4 witness: with `removeStopwords: false`, the demo record keeps the
stopword morpheme "이" in place. -/
theorem C4_unfiltered_rank0_witness :
    preprocess_for_textrank demo_kiwi_stop "req" demo_data_keep
        = .success demo_keep_r ∧
    (get_remove_stopwords demo_data_keep).truthy = false ∧
    demo_keep_ps0 ∈ demo_keep_r.processedSentences ∧
    demo_keep_ps0.tokens = ["고양이", "이", "Cat"] ∧
    (∃ analysis score rest,
      demo_kiwi_stop.analyze demo_keep_ps0.sentence
        = .ok ((analysis, score) :: rest) ∧
      demo_keep_ps0.tokens = analysis.map (fun m => m.form) ∧
      demo_keep_ps0.normalized = analysis.map (fun m => py_lower m.form) ∧
      demo_keep_ps0.posTags = analysis.map (fun m => m.tag)) :=
  ⟨rfl, rfl, by decide, by decide,
   C4_unfiltered_rank0 demo_kiwi_stop "req" demo_data_keep demo_keep_r rfl rfl
     demo_keep_ps0 (by decide)⟩

/-- C3: when `removeStopwords` is truthy, each record's three sequences are
the lock-step filter of the rank-0 candidate's parallel sequences - position
`i` survives exactly when `normalized[i]` is not a stopword, order and
alignment preserved - and no surviving normalized form is a stopword. -/
theorem C3_stopword_filter (kiwi : Kiwi) (request_id : String)
    (data : JsonValue) (r : PreprocessingResult)
    (h : preprocess_for_textrank kiwi request_id data = .success r)
    (hrs : (get_remove_stopwords data).truthy = true) :
    ∀ ps ∈ r.processedSentences,
      (∃ analysis score rest,
        kiwi.analyze ps.sentence = .ok ((analysis, score) :: rest) ∧
        ps.tokens.zip (ps.normalized.zip ps.posTags)
          = ((analysis.map (fun m => m.form)).zip
              ((analysis.map (fun m => py_lower m.form)).zip
                (analysis.map (fun m => m.tag)))).filter
              (fun t => !(KOREAN_STOPWORDS.contains t.2.1))) ∧
      (∀ x ∈ ps.normalized, x ∉ KOREAN_STOPWORDS) := by
  obtain ⟨text, hv, _, _, hps, _, _, _, _, _⟩ := preprocess_success_elim h
  intro ps hmem
  rw [hps, hrs] at hmem
  obtain ⟨i, hi, hp⟩ := (mem_process_sentences _ 0).mp hmem
  obtain ⟨analysis, score, restc, ha, hq⟩ := process_sentence_some_elim hp
  subst hq
  constructor
  · refine ⟨analysis, score, restc, by simpa using ha, ?_⟩
    simp only [kept_morphemes, if_true]
    rw [List.zip_map' (fun m : Morpheme => py_lower m.form) (fun m => m.tag),
        List.zip_map' (fun m : Morpheme => m.form)
          (fun m => (py_lower m.form, m.tag)),
        List.zip_map' (fun m : Morpheme => py_lower m.form) (fun m => m.tag),
        List.zip_map' (fun m : Morpheme => m.form)
          (fun m => (py_lower m.form, m.tag)),
        List.filter_map]
    rfl
  · intro x hx
    simp only [kept_morphemes, if_true, List.mem_map] at hx
    obtain ⟨m, hm, rfl⟩ := hx
    rw [List.mem_filter] at hm
    have := hm.2
    simp only [Bool.not_eq_true'] at this
    simpa using this

/-- The demo response exercising the stopword filter. -/
def demo_stop_r : PreprocessingResult :=
  response_result (preprocess_for_textrank demo_kiwi_stop "req" demo_data)

/-- The first record of the stopword-filtering demo response. -/
def demo_stop_ps0 : ProcessedSentence := demo_stop_r.processedSentences.getD 0 null_ps

/-- C3 witness: with the default `removeStopwords: true`, the demo record
drops exactly the stopword morpheme "이" and keeps alignment. -/
theorem C3_stopword_filter_witness :
    preprocess_for_textrank demo_kiwi_stop "req" demo_data = .success demo_stop_r ∧
    (get_remove_stopwords demo_data).truthy = true ∧
    demo_stop_ps0 ∈ demo_stop_r.processedSentences ∧
    demo_stop_ps0.tokens = ["고양이", "Cat"] ∧
    ((∃ analysis score rest,
      demo_kiwi_stop.analyze demo_stop_ps0.sentence
        = .ok ((analysis, score) :: rest) ∧
      demo_stop_ps0.tokens.zip (demo_stop_ps0.normalized.zip demo_stop_ps0.posTags)
        = ((analysis.map (fun m => m.form)).zip
            ((analysis.map (fun m => py_lower m.form)).zip
              (analysis.map (fun m => m.tag)))).filter
            (fun t => !(KOREAN_STOPWORDS.contains t.2.1))) ∧
     (∀ x ∈ demo_stop_ps0.normalized, x ∉ KOREAN_STOPWORDS)) :=
  ⟨rfl, rfl, by decide, by decide,
   C3_stopword_filter demo_kiwi_stop "req" demo_data demo_stop_r rfl rfl
     demo_stop_ps0 (by decide)⟩

/-! ### Key-term extraction -/

/-- The POS heuristic holds exactly when the tag starts with `N` or with
`V`: the explicit `tag == 'VA'` disjunct is subsumed by the `V`-rule. -/
lemma is_key_tag_iff (tag : String) :
    is_key_tag tag = true ↔
      (py_startswith tag "N" = true ∨ py_startswith tag "V" = true) := by
  simp only [is_key_tag, Bool.or_eq_true, beq_iff_eq]
  constructor
  · rintro ((h | h) | rfl)
    · exact Or.inl h
    · exact Or.inr h
    · exact Or.inr (by decide)
  · rintro (h | h)
    · exact Or.inl (Or.inl h)
    · exact Or.inl (Or.inr h)

/-- Membership in the extracted key-term set, in terms of the source's
indexed double loop. -/
lemma mem_key_terms_iff {processed : List ProcessedSentence} {t : String} :
    t ∈ key_terms processed ↔
      ∃ s ∈ processed, ∃ i, i < s.posTags.length ∧
        is_key_tag (s.posTags.getD i "") = true ∧ s.normalized.getD i "" = t := by
  unfold key_terms
  rw [List.mem_toFinset, List.mem_flatMap]
  constructor
  · rintro ⟨s, hs, ht⟩
    obtain ⟨i, hi, rfl⟩ := List.mem_map.mp ht
    rw [List.mem_filter, List.mem_range] at hi
    exact ⟨s, hs, i, hi.1, hi.2, rfl⟩
  · rintro ⟨s, hs, i, hi, htag, rfl⟩
    exact ⟨s, hs, List.mem_map.mpr
      ⟨i, List.mem_filter.mpr ⟨List.mem_range.mpr hi, htag⟩, rfl⟩⟩

/-- Indexed search over two parallel lists matches search over their zip. -/
lemma exists_zip_iff_getD {xs ys : List String} (hlen : xs.length = ys.length)
    (t : String) (P : String → Bool) :
    (∃ p ∈ xs.zip ys, p.1 = t ∧ P p.2 = true) ↔
      (∃ i, i < ys.length ∧ P (ys.getD i "") = true ∧ xs.getD i "" = t) := by
  induction xs generalizing ys with
  | nil =>
    cases ys with
    | nil => simp
    | cons y ys => simp at hlen
  | cons x xs ih =>
    cases ys with
    | nil => simp at hlen
    | cons y ys =>
      have hlen' : xs.length = ys.length := by simpa using hlen
      constructor
      · rintro ⟨p, hp, hpt, hP⟩
        rw [List.zip_cons_cons, List.mem_cons] at hp
        rcases hp with rfl | hp
        · exact ⟨0, by simp, by simpa using hP, by simpa using hpt⟩
        · obtain ⟨i, hi, hPi, hti⟩ := (ih hlen').mp ⟨p, hp, hpt, hP⟩
          exact ⟨i + 1, by simpa using hi, by simpa using hPi, by simpa using hti⟩
      · rintro ⟨i, hi, hPi, hti⟩
        cases i with
        | zero =>
          refine ⟨(x, y), ?_, by simpa using hti, by simpa using hPi⟩
          rw [List.zip_cons_cons]
          exact List.mem_cons_self _ _
        | succ j =>
          obtain ⟨p, hp, hpt, hP⟩ := (ih hlen').mpr
            ⟨j, by simpa using hi, by simpa using hPi, by simpa using hti⟩
          refine ⟨p, ?_, hpt, hP⟩
          rw [List.zip_cons_cons]
          exact List.mem_cons_of_mem _ hp

/-- Lengths of the three sequences of any collected record all equal its
`tokenCount`. -/
lemma lengths_of_mem
    {a : String → Except String (List (List Morpheme × ℚ))} {rs : Bool}
    {k : Nat} {texts : List String} {ps : ProcessedSentence}
    (hmem : ps ∈ process_sentences a rs k texts) :
    ps.tokens.length = ps.tokenCount ∧
    ps.normalized.length = ps.tokenCount ∧
    ps.posTags.length = ps.tokenCount := by
  obtain ⟨i, hi, hp⟩ := (mem_process_sentences _ _).mp hmem
  obtain ⟨analysis, score, restc, ha, hq⟩ := process_sentence_some_elim hp
  subst hq
  simp

/-- C5: a normalized form is in `keyTerms` exactly when some record holds a
parallel (normalized, posTag) pair whose tag starts with `N` or `V` - the
explicit `VA` equality check being a redundant no-op - and the result is a
set, so duplicates collapse. -/
theorem C5_key_term_membership (kiwi : Kiwi) (request_id : String)
    (data : JsonValue) (r : PreprocessingResult) (t : String)
    (h : preprocess_for_textrank kiwi request_id data = .success r) :
    t ∈ r.keyTerms ↔
      ∃ ps ∈ r.processedSentences, ∃ p ∈ ps.normalized.zip ps.posTags,
        p.1 = t ∧ (py_startswith p.2 "N" = true ∨ py_startswith p.2 "V" = true) := by
  obtain ⟨text, hv, _, _, hps, hkt, _, _, _, _⟩ := preprocess_success_elim h
  have hlen : ∀ ps ∈ r.processedSentences,
      ps.normalized.length = ps.posTags.length := by
    intro ps hmem
    rw [hps] at hmem
    obtain ⟨h1, h2, h3⟩ := lengths_of_mem hmem
    rw [h2, h3]
  rw [hkt, mem_key_terms_iff]
  constructor
  · rintro ⟨s, hs, i, hi, htag, hgetD⟩
    obtain ⟨p, hp, hpt, hP⟩ := (exists_zip_iff_getD (hlen s hs) t is_key_tag).mpr
      ⟨i, hi, htag, hgetD⟩
    exact ⟨s, hs, p, hp, hpt, (is_key_tag_iff p.2).mp hP⟩
  · rintro ⟨s, hs, p, hp, hpt, hNV⟩
    obtain ⟨i, hi, hPi, hti⟩ := (exists_zip_iff_getD (hlen s hs) t is_key_tag).mp
      ⟨p, hp, hpt, (is_key_tag_iff p.2).mpr hNV⟩
    exact ⟨s, hs, i, hi, hPi, hti⟩

/-- C5 witness: at the demo request, "s0" (tagged NNG) is a key term. -/
theorem C5_key_term_membership_witness :
    preprocess_for_textrank demo_kiwi "req" demo_data = .success demo_r ∧
    "s0" ∈ demo_r.keyTerms ∧
    ("s0" ∈ demo_r.keyTerms ↔
      ∃ ps ∈ demo_r.processedSentences,
        ∃ p ∈ ps.normalized.zip ps.posTags,
          p.1 = "s0" ∧
          (py_startswith p.2 "N" = true ∨ py_startswith p.2 "V" = true)) :=
  ⟨rfl, by decide,
   C5_key_term_membership demo_kiwi "req" demo_data demo_r "s0" rfl⟩

/-! ### Validation taxonomy -/

/-- Exhaustive case analysis of `validate_input`: exactly one of the five
outcomes occurs, determined by the payload in the source's checking order. -/
lemma validate_input_cases (data : JsonValue) :
    (data.truthy = false ∧
       validate_input data = .error (.validation MSG_EMPTY_PAYLOAD)) ∨
    (data.truthy = true ∧ (∀ fields, data ≠ .obj fields) ∧
       validate_input data = .error .attributeError) ∨
    (∃ fields, data = .obj fields ∧ data.truthy = true ∧
      ((((fields.lookup "text").getD .null).truthy = false ∧
          validate_input data = .error (.validation MSG_MISSING_TEXT)) ∨
       (((fields.lookup "text").getD .null).truthy = true ∧
         (((∀ s, (fields.lookup "text").getD .null ≠ .str s) ∧
             validate_input data = .error (.validation MSG_NOT_A_STRING)) ∨
          (∃ s, (fields.lookup "text").getD .null = .str s ∧
            (((py_strip s).length = 0 ∧
                validate_input data = .error (.validation MSG_BLANK_TEXT)) ∨
             ((py_strip s).length ≠ 0 ∧
                validate_input data = .ok s))))))) := by
  by_cases hd : data.truthy
  · cases data with
    | null => simp [JsonValue.truthy] at hd
    | bool b =>
      exact Or.inr (Or.inl ⟨hd, fun fields h => JsonValue.noConfusion h,
        by simp [validate_input, hd]⟩)
    | num n =>
      exact Or.inr (Or.inl ⟨hd, fun fields h => JsonValue.noConfusion h,
        by simp [validate_input, hd]⟩)
    | str s =>
      exact Or.inr (Or.inl ⟨hd, fun fields h => JsonValue.noConfusion h,
        by simp [validate_input, hd]⟩)
    | arr elems =>
      exact Or.inr (Or.inl ⟨hd, fun fields h => JsonValue.noConfusion h,
        by simp [validate_input, hd]⟩)
    | obj fields =>
      refine Or.inr (Or.inr ⟨fields, rfl, hd, ?_⟩)
      by_cases ht : ((fields.lookup "text").getD .null).truthy
      · refine Or.inr ⟨ht, ?_⟩
        cases htext : (fields.lookup "text").getD .null with
        | null =>
          rw [htext] at ht
          simp [JsonValue.truthy] at ht
        | bool b =>
          rw [htext] at ht
          exact Or.inl ⟨fun s h => JsonValue.noConfusion h,
            by simp [validate_input, hd, htext, ht]⟩
        | num n =>
          rw [htext] at ht
          exact Or.inl ⟨fun s h => JsonValue.noConfusion h,
            by simp [validate_input, hd, htext, ht]⟩
        | arr elems =>
          rw [htext] at ht
          exact Or.inl ⟨fun s h => JsonValue.noConfusion h,
            by simp [validate_input, hd, htext, ht]⟩
        | obj fields2 =>
          rw [htext] at ht
          exact Or.inl ⟨fun s h => JsonValue.noConfusion h,
            by simp [validate_input, hd, htext, ht]⟩
        | str s =>
          rw [htext] at ht
          refine Or.inr ⟨s, rfl, ?_⟩
          by_cases hb : (py_strip s).length = 0
          · exact Or.inl ⟨hb, by simp [validate_input, hd, htext, ht, hb]⟩
          · exact Or.inr ⟨hb, by simp [validate_input, hd, htext, ht, hb]⟩
      · have ht' : ((fields.lookup "text").getD .null).truthy = false := by
          simpa using ht
        exact Or.inl ⟨ht', by simp [validate_input, hd, ht']⟩
  · have hd' : data.truthy = false := by simpa using hd
    exact Or.inl ⟨hd', by simp [validate_input, hd']⟩

/-- The "empty payload" reason occurs exactly on falsy payloads. -/
lemma validate_eq_empty_iff (data : JsonValue) :
    validate_input data = .error (.validation MSG_EMPTY_PAYLOAD) ↔
      data.truthy = false := by
  have hne1 : MSG_MISSING_TEXT ≠ MSG_EMPTY_PAYLOAD := by decide
  have hne2 : MSG_NOT_A_STRING ≠ MSG_EMPTY_PAYLOAD := by decide
  have hne3 : MSG_BLANK_TEXT ≠ MSG_EMPTY_PAYLOAD := by decide
  rcases validate_input_cases data with ⟨hf, he⟩ | ⟨ht, _, he⟩ |
    ⟨fields, hdata, ht, ⟨_, he⟩ | ⟨_, ⟨_, he⟩ | ⟨s, _, ⟨_, he⟩ | ⟨_, he⟩⟩⟩⟩
  · simp [he, hf]
  · rw [he, ht]
    simp
  · rw [he, ht]
    simp [hne1]
  · rw [he, ht]
    simp [hne2]
  · rw [he, ht]
    simp [hne3]
  · rw [he, ht]
    simp

/-- The "missing text" reason occurs exactly on truthy dict payloads whose
`text` value (default `None`) is falsy. -/
lemma validate_eq_missing_iff (data : JsonValue) :
    validate_input data = .error (.validation MSG_MISSING_TEXT) ↔
      (data.truthy = true ∧ ∃ fields, data = .obj fields ∧
        ((fields.lookup "text").getD .null).truthy = false) := by
  have hne1 : MSG_EMPTY_PAYLOAD ≠ MSG_MISSING_TEXT := by decide
  have hne2 : MSG_NOT_A_STRING ≠ MSG_MISSING_TEXT := by decide
  have hne3 : MSG_BLANK_TEXT ≠ MSG_MISSING_TEXT := by decide
  rcases validate_input_cases data with ⟨hf, he⟩ | ⟨ht, hno, he⟩ |
    ⟨fields, hdata, ht, ⟨htf, he⟩ | ⟨htt, ⟨hns, he⟩ | ⟨s, hstr, ⟨hb, he⟩ | ⟨hb, he⟩⟩⟩⟩
  · rw [he]
    constructor
    · intro h
      exact absurd (PyError.validation.inj (Except.error.inj h)) hne1
    · rintro ⟨h, _⟩
      exact absurd h (by simp [hf])
  · rw [he]
    constructor
    · intro h
      exact absurd h (by simp)
    · rintro ⟨_, fields, hdata, _⟩
      exact absurd hdata (hno fields)
  · rw [he]
    exact ⟨fun _ => ⟨ht, fields, hdata, htf⟩, fun _ => rfl⟩
  · rw [he]
    constructor
    · intro h
      exact absurd (PyError.validation.inj (Except.error.inj h)) hne2
    · rintro ⟨_, fields', hfe, hf'⟩
      rw [hdata] at hfe
      rw [← JsonValue.obj.inj hfe] at hf'
      exact absurd hf' (by simp [htt])
  · rw [he]
    constructor
    · intro h
      exact absurd (PyError.validation.inj (Except.error.inj h)) hne3
    · rintro ⟨_, fields', hfe, hf'⟩
      rw [hdata] at hfe
      rw [← JsonValue.obj.inj hfe] at hf'
      exact absurd hf' (by simp [htt])
  · rw [he]
    constructor
    · intro h
      exact absurd h (by simp)
    · rintro ⟨_, fields', hfe, hf'⟩
      rw [hdata] at hfe
      rw [← JsonValue.obj.inj hfe] at hf'
      exact absurd hf' (by simp [htt])

/-- The "text not a string" reason occurs exactly on truthy dict payloads
whose `text` value is truthy but not a string. -/
lemma validate_eq_notstring_iff (data : JsonValue) :
    validate_input data = .error (.validation MSG_NOT_A_STRING) ↔
      (data.truthy = true ∧ ∃ fields, data = .obj fields ∧
        ((fields.lookup "text").getD .null).truthy = true ∧
        ∀ s, (fields.lookup "text").getD .null ≠ .str s) := by
  have hne1 : MSG_EMPTY_PAYLOAD ≠ MSG_NOT_A_STRING := by decide
  have hne2 : MSG_MISSING_TEXT ≠ MSG_NOT_A_STRING := by decide
  have hne3 : MSG_BLANK_TEXT ≠ MSG_NOT_A_STRING := by decide
  rcases validate_input_cases data with ⟨hf, he⟩ | ⟨ht, hno, he⟩ |
    ⟨fields, hdata, ht, ⟨htf, he⟩ | ⟨htt, ⟨hns, he⟩ | ⟨s, hstr, ⟨hb, he⟩ | ⟨hb, he⟩⟩⟩⟩
  · rw [he]
    constructor
    · intro h
      exact absurd (PyError.validation.inj (Except.error.inj h)) hne1
    · rintro ⟨h, _⟩
      exact absurd h (by simp [hf])
  · rw [he]
    constructor
    · intro h
      exact absurd h (by simp)
    · rintro ⟨_, fields, hdata, _⟩
      exact absurd hdata (hno fields)
  · rw [he]
    constructor
    · intro h
      exact absurd (PyError.validation.inj (Except.error.inj h)) hne2
    · rintro ⟨_, fields', hfe, hf', _⟩
      rw [hdata] at hfe
      rw [← JsonValue.obj.inj hfe] at hf'
      exact absurd hf' (by simp [htf])
  · rw [he]
    exact ⟨fun _ => ⟨ht, fields, hdata, htt, hns⟩, fun _ => rfl⟩
  · rw [he]
    constructor
    · intro h
      exact absurd (PyError.validation.inj (Except.error.inj h)) hne3
    · rintro ⟨_, fields', hfe, _, hforall⟩
      rw [hdata] at hfe
      rw [← JsonValue.obj.inj hfe] at hforall
      exact absurd hstr (hforall s)
  · rw [he]
    constructor
    · intro h
      exact absurd h (by simp)
    · rintro ⟨_, fields', hfe, _, hforall⟩
      rw [hdata] at hfe
      rw [← JsonValue.obj.inj hfe] at hforall
      exact absurd hstr (hforall s)

/-- The "blank text" reason occurs exactly on truthy dict payloads whose
`text` value is a truthy string that strips to the empty string. -/
lemma validate_eq_blank_iff (data : JsonValue) :
    validate_input data = .error (.validation MSG_BLANK_TEXT) ↔
      (data.truthy = true ∧ ∃ fields s, data = .obj fields ∧
        (fields.lookup "text").getD .null = .str s ∧
        (JsonValue.str s).truthy = true ∧ (py_strip s).length = 0) := by
  have hne1 : MSG_EMPTY_PAYLOAD ≠ MSG_BLANK_TEXT := by decide
  have hne2 : MSG_MISSING_TEXT ≠ MSG_BLANK_TEXT := by decide
  have hne3 : MSG_NOT_A_STRING ≠ MSG_BLANK_TEXT := by decide
  rcases validate_input_cases data with ⟨hf, he⟩ | ⟨ht, hno, he⟩ |
    ⟨fields, hdata, ht, ⟨htf, he⟩ | ⟨htt, ⟨hns, he⟩ | ⟨s, hstr, ⟨hb, he⟩ | ⟨hb, he⟩⟩⟩⟩
  · rw [he]
    constructor
    · intro h
      exact absurd (PyError.validation.inj (Except.error.inj h)) hne1
    · rintro ⟨h, _⟩
      exact absurd h (by simp [hf])
  · rw [he]
    constructor
    · intro h
      exact absurd h (by simp)
    · rintro ⟨_, fields, s, hdata, _⟩
      exact absurd hdata (hno fields)
  · rw [he]
    constructor
    · intro h
      exact absurd (PyError.validation.inj (Except.error.inj h)) hne2
    · rintro ⟨_, fields', s', hfe, hstr', hstruthy, _⟩
      rw [hdata] at hfe
      rw [← JsonValue.obj.inj hfe] at hstr'
      rw [hstr'] at htf
      exact absurd hstruthy (by simp [htf])
  · rw [he]
    constructor
    · intro h
      exact absurd (PyError.validation.inj (Except.error.inj h)) hne3
    · rintro ⟨_, fields', s', hfe, hstr', _, _⟩
      rw [hdata] at hfe
      rw [← JsonValue.obj.inj hfe] at hstr'
      exact absurd hstr' (hns s')
  · rw [he]
    refine ⟨fun _ => ⟨ht, fields, s, hdata, hstr, ?_, hb⟩, fun _ => rfl⟩
    rw [← hstr]
    exact htt
  · rw [he]
    constructor
    · intro h
      exact absurd h (by simp)
    · rintro ⟨_, fields', s', hfe, hstr', _, hb'⟩
      rw [hdata] at hfe
      rw [← JsonValue.obj.inj hfe] at hstr'
      rw [hstr] at hstr'
      rw [← JsonValue.str.inj hstr'] at hb'
      exact absurd hb' hb

/-- On a validation failure, the endpoint answers immediately with the
client-error response carrying the request id, independently of the
segmenter and analyzer (no further processing happens). -/
lemma validate_error_client (kiwi kiwi' : Kiwi) (request_id : String)
    (data : JsonValue) (msg : String)
    (hv : validate_input data = .error (.validation msg)) :
    preprocess_for_textrank kiwi request_id data
      = .clientError (VALIDATION_ERROR_LABEL ++ msg) request_id ∧
    preprocess_for_textrank kiwi request_id data
      = preprocess_for_textrank kiwi' request_id data := by
  constructor <;> simp [preprocess_for_textrank, hv]

/-- C7: the validation taxonomy and its precedence - "empty payload" on a
falsy payload, else "missing text" when the `text` value is absent or falsy,
else "text not a string" when it is truthy but not a string, else "blank
text" when it strips to nothing - and every validation failure is answered
immediately by the client-error response carrying the request id, with no
segmentation or sentence processing performed (the response does not depend
on the collaborators). -/
theorem C7_validation_taxonomy (data : JsonValue) (request_id : String)
    (kiwi kiwi' : Kiwi) :
    (validate_input data = .error (.validation MSG_EMPTY_PAYLOAD) ↔
       data.truthy = false) ∧
    (validate_input data = .error (.validation MSG_MISSING_TEXT) ↔
       (data.truthy = true ∧ ∃ fields, data = .obj fields ∧
         ((fields.lookup "text").getD .null).truthy = false)) ∧
    (validate_input data = .error (.validation MSG_NOT_A_STRING) ↔
       (data.truthy = true ∧ ∃ fields, data = .obj fields ∧
         ((fields.lookup "text").getD .null).truthy = true ∧
         ∀ s, (fields.lookup "text").getD .null ≠ .str s)) ∧
    (validate_input data = .error (.validation MSG_BLANK_TEXT) ↔
       (data.truthy = true ∧ ∃ fields s, data = .obj fields ∧
         (fields.lookup "text").getD .null = .str s ∧
         (JsonValue.str s).truthy = true ∧ (py_strip s).length = 0)) ∧
    (∀ msg, validate_input data = .error (.validation msg) →
       preprocess_for_textrank kiwi request_id data
         = .clientError (VALIDATION_ERROR_LABEL ++ msg) request_id ∧
       preprocess_for_textrank kiwi request_id data
         = preprocess_for_textrank kiwi' request_id data) :=
  ⟨validate_eq_empty_iff data, validate_eq_missing_iff data,
   validate_eq_notstring_iff data, validate_eq_blank_iff data,
   fun msg hv => validate_error_client kiwi kiwi' request_id data msg hv⟩

/-- C7 witness: the theorem instantiated at the empty-dict payload, and at a
whitespace-only text payload. -/
theorem C7_validation_taxonomy_witness :
    validate_input (JsonValue.obj []) = .error (.validation MSG_EMPTY_PAYLOAD) ∧
    validate_input (JsonValue.obj [("text", .str "   ")])
      = .error (.validation MSG_BLANK_TEXT) ∧
    preprocess_for_textrank demo_kiwi "req" (JsonValue.obj [])
      = .clientError (VALIDATION_ERROR_LABEL ++ MSG_EMPTY_PAYLOAD) "req" := by
  have hthm := C7_validation_taxonomy (JsonValue.obj []) "req" demo_kiwi demo_kiwi
  have hthm2 := C7_validation_taxonomy (JsonValue.obj [("text", .str "   ")])
    "req" demo_kiwi demo_kiwi
  have h1 : validate_input (JsonValue.obj [])
      = .error (.validation MSG_EMPTY_PAYLOAD) := hthm.1.mpr (by decide)
  have h2 : validate_input (JsonValue.obj [("text", .str "   ")])
      = .error (.validation MSG_BLANK_TEXT) :=
    hthm2.2.2.2.1.mpr
      ⟨by decide, [("text", .str "   ")], "   ", rfl, rfl, by decide, by decide⟩
  exact ⟨h1, h2, (hthm.2.2.2.2 MSG_EMPTY_PAYLOAD h1).1⟩

end TextRank
